import Mathlib

/-!
Shallow embedding of the Amazonia tipping-point model
(src/modelo_ecológico_empirico.py) and verification of the
specification claims about it.

Machine reals of the source (numpy float64) are modelled as the real
numbers; integer years as the integers.  Fallible operations (array
index errors) are modelled with Option.
-/

namespace Amazonia

/-- Base deforestation coefficient a0 of the source (line 51). -/
def a0 : ℝ := 0.1478

/-- Critical deforestation reference D_ref of the source (line 52). -/
def D_ref : ℝ := 0.0021

/-- Feedback coefficient b of the source (line 53). -/
def b : ℝ := 0.1747

/-- Pressure half-life tau of the source (line 54). -/
def tau : ℝ := 10

/-- Persistence coefficient c = exp(-1/tau) of the source (line 55). -/
noncomputable def c : ℝ := Real.exp (-1 / tau)

/-- Tipping threshold (20 percent of forest remaining), source line 56. -/
def tipping_point : ℝ := 0.20

/-- Collapse threshold (5 percent), source line 57. -/
def colapso : ℝ := 0.05

/-- First simulated calendar year, source line 59. -/
def ano_inicial : ℤ := 2024

/-- Last simulated calendar year, source line 60. -/
def ano_final : ℤ := 2250

/-- Length of the year grid arange(ano_inicial, ano_final + 1), source lines 61-62. -/
def horizonLen (ai af : ℤ) : ℕ := (af + 1 - ai).toNat

/-- Number of simulated years of the published run. -/
def n_anos : ℕ := horizonLen ano_inicial ano_final

/-- Initial forest cover of 2024, source line 64. -/
def x0 : ℝ := 0.85

/-- Initial accumulated pressure of 2024, source line 65. -/
def y0 : ℝ := 0.15

/-- Climate amplification factor of the step function, source lines 71-72:
phase = (ano - 2024) % 10 and fator_clima = 1 + 0.3 * max(0, sin(0.2*pi*phase)). -/
noncomputable def fator_clima (ano_ocorrente : ℤ) : ℝ :=
  1 + 0.3 * max 0 (Real.sin (0.2 * Real.pi * (((ano_ocorrente - 2024) % 10 : ℤ) : ℝ)))

/-- Pressure saturation of the step function, source lines 74-77:
sigma = y/(1+y) when y > 0, else 0. -/
noncomputable def sigma (y : ℝ) : ℝ :=
  if y > 0 then y / (1 + y) else 0

/-- The single time step of the model, source lines 67-92.  Returns
(x_np1, y_np1, desmat): next forest cover, next pressure and the
deforestation of the step. -/
noncomputable def sistema_step_tipping (x y a b c tipping_limite : ℝ)
    (ano_ocorrente : ℤ) : ℝ × ℝ × ℝ :=
  if x ≤ tipping_limite then
    let fator_transicao := min 1 ((tipping_limite - x) / tipping_limite)
    let desmat := fator_clima ano_ocorrente * (a * sigma y + 0.05 * fator_transicao)
    (max 0 (x - desmat), b * desmat + c * y + 0.01, desmat)
  else
    let desmat := fator_clima ano_ocorrente * a * sigma y
    (max 0 (x - desmat), b * desmat + c * y, desmat)

/-- Amplification formula as the specification words it (spec section 4.1,
step 1), written independently of the source for the refinement claim C1. -/
noncomputable def spec_amplification (year : ℤ) : ℝ :=
  1 + 0.3 * max 0 (Real.sin (0.2 * Real.pi * (((year - 2024) % 10 : ℤ) : ℝ)))

/-- Saturation formula as the specification words it (spec section 4.1, step 2). -/
noncomputable def spec_sigma (pressure : ℝ) : ℝ :=
  if 0 < pressure then pressure / (1 + pressure) else 0

/-- Deforestation formula as the specification words it (spec section 4.1,
step 3): post-tipping branch uses the transition factor, stable branch only
amplification, forcing and saturation. -/
noncomputable def spec_deforestation (forest_cover pressure a T : ℝ) (year : ℤ) : ℝ :=
  if forest_cover ≤ T then
    spec_amplification year *
      (a * spec_sigma pressure + 0.05 * min 1 ((T - forest_cover) / T))
  else
    spec_amplification year * a * spec_sigma pressure

/-- The whole step as the specification words it (spec section 4.1,
steps 1-5), for comparison with the source step function. -/
noncomputable def spec_step (forest_cover pressure a b c T : ℝ) (year : ℤ) : ℝ × ℝ × ℝ :=
  (max 0 (forest_cover - spec_deforestation forest_cover pressure a T year),
   (if forest_cover ≤ T then
      b * spec_deforestation forest_cover pressure a T year + c * pressure + 0.01
    else
      b * spec_deforestation forest_cover pressure a T year + c * pressure),
   spec_deforestation forest_cover pressure a T year)

/-- The state recurrence driven by the simulator, source lines 104-112:
index 0 holds the seeded initial state (and deforestation 0, the np.zeros
entry that is never overwritten); index i+1 applies the step function to
the state of index i, the forcing entry i and the calendar year ai + i + 1. -/
noncomputable def estado (aT : ℕ → ℝ) (b c x0 y0 tipping_limite : ℝ) (ai : ℤ) :
    ℕ → ℝ × ℝ × ℝ
  | 0 => (x0, y0, 0)
  | i + 1 =>
      let p := estado aT b c x0 y0 tipping_limite ai i
      sistema_step_tipping p.1 p.2.1 (aT i) b c tipping_limite (ai + (i : ℤ) + 1)

/-- The tipping latch of the simulator after processing year index i,
source lines 106 and 114-116: it is set once some year index j with
1 ≤ j ≤ i has forest cover at or below the threshold, and never reset. -/
noncomputable def tipping_ativado (xF : ℕ → ℝ) (T : ℝ) : ℕ → Bool
  | 0 => false
  | i + 1 => if xF (i + 1) ≤ T then true else tipping_ativado xF T i

/-- Regime classification of year index i, source lines 113-120:
index 0 keeps the np.zeros value 0; a later index is 1 when it first sets
the latch, 2 when the latch was already set, else 0. -/
noncomputable def regimeIdx (xF : ℕ → ℝ) (T : ℝ) : ℕ → ℕ
  | 0 => 0
  | i + 1 =>
      if tipping_ativado xF T i = false ∧ xF (i + 1) ≤ T then 1
      else if tipping_ativado xF T i = true then 2
      else 0

/-- The five arrays returned by simular_cenario, source line 121. -/
structure SimResult where
  anos : List ℤ
  x_series : List ℝ
  y_series : List ℝ
  desmat_series : List ℝ
  regime : List ℕ

/-- The simulator, source lines 94-121.  The horizon is the arange of the
calendar years.  The source writes x_series[0] unconditionally and reads
a_trajectory[i-1] for i = 1..n-1; an empty horizon or a forcing sequence
shorter than n-1 would make those array accesses fail, which is modelled
as none.  No other validation exists in the source. -/
noncomputable def simular_cenario (a_trajectory : List ℝ)
    (b c x0 y0 tipping_limite : ℝ) (ai af : ℤ) : Option SimResult :=
  if 1 ≤ horizonLen ai af ∧ horizonLen ai af - 1 ≤ a_trajectory.length then
    some
      { anos := (List.range (horizonLen ai af)).map (fun i : ℕ => ai + (i : ℤ))
        x_series := (List.range (horizonLen ai af)).map
          (fun i => (estado (fun j => a_trajectory.getD j 0) b c x0 y0 tipping_limite ai i).1)
        y_series := (List.range (horizonLen ai af)).map
          (fun i => (estado (fun j => a_trajectory.getD j 0) b c x0 y0 tipping_limite ai i).2.1)
        desmat_series := (List.range (horizonLen ai af)).map
          (fun i => (estado (fun j => a_trajectory.getD j 0) b c x0 y0 tipping_limite ai i).2.2)
        regime := (List.range (horizonLen ai af)).map
          (fun i => regimeIdx
            (fun k => (estado (fun j => a_trajectory.getD j 0) b c x0 y0 tipping_limite ai k).1)
            tipping_limite i) }
  else none

/-- First-crossing analysis, source lines 174-179: the first year whose
series value is at or below the threshold, scanning in order; none when
the series never crosses.  The source walks both arrays by the same index;
the arrays always have equal length at every call site. -/
noncomputable def ano_limite : List ℝ → List ℤ → ℝ → Option ℤ
  | [], _, _ => none
  | _ :: _, [], _ => none
  | x :: xs, a :: ys, limite =>
      if x ≤ limite then some a else ano_limite xs ys limite

/-- Raw trend-scenario deforestation value of year index i, source
lines 131-142: 0.0011 for index 0 and indices up to 16, then a linear
decrease over 120 years down to 0.0007. -/
noncomputable def D_tend (i : ℕ) : ℝ :=
  if i = 0 then 0.0011
  else if i ≤ 16 then 0.0011
  else 0.0011 - (0.0011 - 0.0007) * min 1 (((i : ℝ) - 16) / 120)

/-- Trend-scenario forcing trajectory, source line 143: the rescaling
a0 * (1 + D/D_ref) applied to every raw value of the horizon. -/
noncomputable def cenario_tendencia : List ℝ :=
  (List.range n_anos).map (fun i => a0 * (1 + D_tend i / D_ref))

/-- Division with an explicit zero-denominator check, used to model the
IEEE hazard of the source divisions. -/
noncomputable def divChecked (p q : ℝ) : Option ℝ :=
  if q = 0 then none else some (p / q)

/-- The step function with every division checked: none exactly when an
executed division of the source would divide by zero (producing a NaN or
infinity in float64), mirroring sistema_step_tipping line by line. -/
noncomputable def sistema_step_tipping_checked (x y a b c tipping_limite : ℝ)
    (ano_ocorrente : ℤ) : Option (ℝ × ℝ × ℝ) := do
  let sigma_v ← if y > 0 then divChecked y (1 + y) else pure 0
  if x ≤ tipping_limite then
    let ft ← divChecked (tipping_limite - x) tipping_limite
    let fator_transicao := min 1 ft
    let desmat := fator_clima ano_ocorrente * (a * sigma_v + 0.05 * fator_transicao)
    pure (max 0 (x - desmat), b * desmat + c * y + 0.01, desmat)
  else
    let desmat := fator_clima ano_ocorrente * a * sigma_v
    pure (max 0 (x - desmat), b * desmat + c * y, desmat)

/-- The amplification factor is at least 1. -/
lemma one_le_fator_clima (ano : ℤ) : 1 ≤ fator_clima ano := by
  unfold fator_clima
  have h := le_max_left (0 : ℝ) (Real.sin (0.2 * Real.pi * (((ano - 2024) % 10 : ℤ) : ℝ)))
  nlinarith

/-- The saturated pressure is nonnegative. -/
lemma sigma_nonneg (y : ℝ) : 0 ≤ sigma y := by
  unfold sigma
  split
  · apply div_nonneg <;> linarith
  · exact le_rfl

/-- In both branches the next forest cover is the clamp of the current
cover minus the deforestation of the step. -/
lemma step_fst (x y a b c T : ℝ) (ano : ℤ) :
    (sistema_step_tipping x y a b c T ano).1 =
      max 0 (x - (sistema_step_tipping x y a b c T ano).2.2) := by
  unfold sistema_step_tipping
  split <;> rfl

/-- With a nonnegative forcing coefficient and a positive threshold the
deforestation of a step is nonnegative. -/
lemma step_desmat_nonneg (x y a b c T : ℝ) (ano : ℤ) (ha : 0 ≤ a) (hT : 0 < T) :
    0 ≤ (sistema_step_tipping x y a b c T ano).2.2 := by
  have hfc : (0 : ℝ) ≤ fator_clima ano := le_trans zero_le_one (one_le_fator_clima ano)
  have hs : 0 ≤ a * sigma y := mul_nonneg ha (sigma_nonneg y)
  unfold sistema_step_tipping
  split
  next h =>
    have hft : (0 : ℝ) ≤ min 1 ((T - x) / T) :=
      le_min zero_le_one (div_nonneg (by linarith) hT.le)
    have : (0 : ℝ) ≤ a * sigma y + 0.05 * min 1 ((T - x) / T) := by nlinarith
    simpa using mul_nonneg hfc this
  next h =>
    simpa [mul_assoc] using mul_nonneg hfc hs

/-- The next forest cover of a step is nonnegative and at most the
current (nonnegative) cover. -/
lemma step_x_bounds (x y a b c T : ℝ) (ano : ℤ) (hx : 0 ≤ x) (ha : 0 ≤ a)
    (hT : 0 < T) :
    0 ≤ (sistema_step_tipping x y a b c T ano).1 ∧
      (sistema_step_tipping x y a b c T ano).1 ≤ x := by
  rw [step_fst]
  refine ⟨le_max_left _ _, max_le hx ?_⟩
  have := step_desmat_nonneg x y a b c T ano ha hT
  linarith

/-- Equation: the recurrence at index 0 is the seeded initial state. -/
lemma estado_zero (aT : ℕ → ℝ) (b c x0 y0 T : ℝ) (ai : ℤ) :
    estado aT b c x0 y0 T ai 0 = (x0, y0, 0) := rfl

/-- Equation: the recurrence at index i+1 applies the step function. -/
lemma estado_succ (aT : ℕ → ℝ) (b c x0 y0 T : ℝ) (ai : ℤ) (i : ℕ) :
    estado aT b c x0 y0 T ai (i + 1) =
      sistema_step_tipping (estado aT b c x0 y0 T ai i).1
        (estado aT b c x0 y0 T ai i).2.1 (aT i) b c T (ai + (i : ℤ) + 1) := rfl

/-- Forest cover stays nonnegative along the recurrence. -/
lemma estado_x_nonneg (aT : ℕ → ℝ) (b c x0 y0 T : ℝ) (ai : ℤ) (hx0 : 0 ≤ x0) :
    ∀ i, 0 ≤ (estado aT b c x0 y0 T ai i).1 := by
  intro i
  cases i with
  | zero => simpa [estado_zero] using hx0
  | succ m => rw [estado_succ, step_fst]; exact le_max_left _ _

/-- Each step of the recurrence does not increase the forest cover. -/
lemma estado_x_succ_le (aT : ℕ → ℝ) (b c x0 y0 T : ℝ) (ai : ℤ)
    (haT : ∀ i, 0 ≤ aT i) (hT : 0 < T) (hx0 : 0 ≤ x0) (i : ℕ) :
    (estado aT b c x0 y0 T ai (i + 1)).1 ≤ (estado aT b c x0 y0 T ai i).1 := by
  rw [estado_succ]
  exact (step_x_bounds _ _ _ _ _ _ _
    (estado_x_nonneg aT b c x0 y0 T ai hx0 i) (haT i) hT).2

/-- The forest-cover values of the recurrence are antitone in the index. -/
lemma estado_x_antitone (aT : ℕ → ℝ) (b c x0 y0 T : ℝ) (ai : ℤ)
    (haT : ∀ i, 0 ≤ aT i) (hT : 0 < T) (hx0 : 0 ≤ x0) :
    ∀ i j, i ≤ j → (estado aT b c x0 y0 T ai j).1 ≤ (estado aT b c x0 y0 T ai i).1 := by
  intro i j hij
  induction j, hij using Nat.le_induction with
  | base => exact le_rfl
  | succ m him ih =>
      exact le_trans (estado_x_succ_le aT b c x0 y0 T ai haT hT hx0 m) ih

/-- The forest cover of the recurrence never exceeds 1 when it starts in [0,1]. -/
lemma estado_x_le_one (aT : ℕ → ℝ) (b c x0 y0 T : ℝ) (ai : ℤ)
    (haT : ∀ i, 0 ≤ aT i) (hT : 0 < T) (hx0 : 0 ≤ x0) (hx1 : x0 ≤ 1) :
    ∀ i, (estado aT b c x0 y0 T ai i).1 ≤ 1 := by
  intro i
  have h := estado_x_antitone aT b c x0 y0 T ai haT hT hx0 0 i (Nat.zero_le i)
  simpa [estado_zero] using le_trans h hx1

/-- Every default of getD over a list of nonnegative reals is nonnegative. -/
lemma getD_nonneg (l : List ℝ) (h : ∀ a ∈ l, 0 ≤ a) (i : ℕ) : 0 ≤ l.getD i 0 := by
  rcases lt_or_ge i l.length with hi | hi
  · rw [List.getD_eq_getElem l 0 hi]
    exact h _ (List.getElem_mem hi)
  · rw [List.getD_eq_default l 0 hi]

/-- Inversion of the simulator: a some-result forces the index guards and
determines every series from the recurrence and the regime classification. -/
lemma simular_some_iff (aT : List ℝ) (b c x0 y0 T : ℝ) (ai af : ℤ)
    (res : SimResult) :
    simular_cenario aT b c x0 y0 T ai af = some res ↔
      (1 ≤ horizonLen ai af ∧ horizonLen ai af - 1 ≤ aT.length) ∧
      res =
        { anos := (List.range (horizonLen ai af)).map (fun i : ℕ => ai + (i : ℤ))
          x_series := (List.range (horizonLen ai af)).map
            (fun i => (estado (fun j => aT.getD j 0) b c x0 y0 T ai i).1)
          y_series := (List.range (horizonLen ai af)).map
            (fun i => (estado (fun j => aT.getD j 0) b c x0 y0 T ai i).2.1)
          desmat_series := (List.range (horizonLen ai af)).map
            (fun i => (estado (fun j => aT.getD j 0) b c x0 y0 T ai i).2.2)
          regime := (List.range (horizonLen ai af)).map
            (fun i => regimeIdx
              (fun k => (estado (fun j => aT.getD j 0) b c x0 y0 T ai k).1) T i) } := by
  unfold simular_cenario
  split
  next hg => simp [hg, eq_comm]
  next hg =>
    constructor
    · intro hc; simp at hc
    · rintro ⟨hg2, _⟩; exact absurd hg2 hg

/-- The latch after index i is set exactly when some year index j with
1 ≤ j ≤ i has forest cover at or below the threshold. -/
lemma tipping_ativado_iff (xF : ℕ → ℝ) (T : ℝ) :
    ∀ i, tipping_ativado xF T i = true ↔ ∃ j, 1 ≤ j ∧ j ≤ i ∧ xF j ≤ T := by
  intro i
  induction i with
  | zero =>
      simp only [tipping_ativado]
      constructor
      · intro h; exact absurd h (by simp)
      · rintro ⟨j, h1, h2, _⟩; omega
  | succ m ih =>
      simp only [tipping_ativado]
      by_cases h : xF (m + 1) ≤ T
      · simp only [if_pos h]
        constructor
        · intro _; exact ⟨m + 1, by omega, le_rfl, h⟩
        · intro _; trivial
      · simp only [if_neg h]
        rw [ih]
        constructor
        · rintro ⟨j, h1, h2, h3⟩; exact ⟨j, h1, by omega, h3⟩
        · rintro ⟨j, h1, h2, h3⟩
          refine ⟨j, h1, ?_, h3⟩
          rcases Nat.lt_or_ge j (m + 1) with hj | hj
          · omega
          · have : j = m + 1 := by omega
            subst this; exact absurd h3 h

/-- The regime of year index i is 1 exactly when i is the first index from 1
onward whose forest cover is at or below the threshold. -/
lemma regimeIdx_eq_one_iff (xF : ℕ → ℝ) (T : ℝ) (i : ℕ) :
    regimeIdx xF T i = 1 ↔
      1 ≤ i ∧ xF i ≤ T ∧ ∀ j, 1 ≤ j → j < i → T < xF j := by
  cases i with
  | zero => simp [regimeIdx]
  | succ m =>
      simp only [regimeIdx]
      by_cases hl : tipping_ativado xF T m = true
      · rw [if_neg (by simp [hl]), if_pos hl]
        rcases (tipping_ativado_iff xF T m).mp hl with ⟨j, h1, h2, h3⟩
        constructor
        · intro h; exact absurd h (by norm_num)
        · rintro ⟨_, _, hall⟩
          exact absurd h3 (not_le.mpr (hall j h1 (by omega)))
      · have hl2 : tipping_ativado xF T m = false := by
          cases h : tipping_ativado xF T m
          · rfl
          · exact absurd h hl
        by_cases hx : xF (m + 1) ≤ T
        · rw [if_pos ⟨hl2, hx⟩]
          refine ⟨fun _ => ⟨by omega, hx, ?_⟩, fun _ => rfl⟩
          intro j h1 h2
          by_contra hnot
          exact hl ((tipping_ativado_iff xF T m).mpr ⟨j, h1, by omega, by linarith⟩)
        · rw [if_neg (by simp [hx]), if_neg (by simp [hl2])]
          constructor
          · intro h; exact absurd h (by norm_num)
          · rintro ⟨_, hx2, _⟩; exact absurd hx2 hx

/-- The regime of year index i is 2 exactly when some strictly earlier index
from 1 onward already crossed the threshold. -/
lemma regimeIdx_eq_two_iff (xF : ℕ → ℝ) (T : ℝ) (i : ℕ) :
    regimeIdx xF T i = 2 ↔ ∃ j, 1 ≤ j ∧ j < i ∧ xF j ≤ T := by
  cases i with
  | zero =>
      simp only [regimeIdx]
      constructor
      · intro h; exact absurd h (by norm_num)
      · rintro ⟨j, h1, h2, _⟩; omega
  | succ m =>
      simp only [regimeIdx]
      have hiff := tipping_ativado_iff xF T m
      by_cases hl : tipping_ativado xF T m = true
      · rw [if_neg (by simp [hl]), if_pos hl]
        rcases hiff.mp hl with ⟨j, h1, h2, h3⟩
        exact ⟨fun _ => ⟨j, h1, by omega, h3⟩, fun _ => rfl⟩
      · have hl2 : tipping_ativado xF T m = false := by
          cases h : tipping_ativado xF T m
          · rfl
          · exact absurd h hl
        have hno : ¬∃ j, 1 ≤ j ∧ j < m + 1 ∧ xF j ≤ T := by
          rintro ⟨j, h1, h2, h3⟩
          exact hl (hiff.mpr ⟨j, h1, by omega, h3⟩)
        by_cases hx : xF (m + 1) ≤ T
        · rw [if_pos ⟨hl2, hx⟩]
          exact ⟨fun h => absurd h (by norm_num), fun h => absurd h hno⟩
        · rw [if_neg (by simp [hx]), if_neg (by simp [hl2])]
          exact ⟨fun h => absurd h (by norm_num), fun h => absurd h hno⟩

/-- The regime of year index i is 0 exactly when i is 0 or no index from 1
up to i has crossed the threshold. -/
lemma regimeIdx_eq_zero_iff (xF : ℕ → ℝ) (T : ℝ) (i : ℕ) :
    regimeIdx xF T i = 0 ↔ (i = 0 ∨ ∀ j, 1 ≤ j → j ≤ i → T < xF j) := by
  cases i with
  | zero => simp [regimeIdx]
  | succ m =>
      simp only [regimeIdx]
      have hiff := tipping_ativado_iff xF T m
      constructor
      · intro h
        right
        intro j h1 h2
        by_contra hnot
        push_neg at hnot
        by_cases hj : j ≤ m
        · have hl : tipping_ativado xF T m = true := hiff.mpr ⟨j, h1, hj, hnot⟩
          rw [if_neg (by simp [hl]), if_pos hl] at h
          exact absurd h (by norm_num)
        · have hj2 : j = m + 1 := by omega
          subst hj2
          by_cases hl : tipping_ativado xF T m = true
          · rw [if_neg (by simp [hl]), if_pos hl] at h
            exact absurd h (by norm_num)
          · have hl2 : tipping_ativado xF T m = false := by
              cases hh : tipping_ativado xF T m
              · rfl
              · exact absurd hh hl
            rw [if_pos ⟨hl2, hnot⟩] at h
            exact absurd h (by norm_num)
      · intro h
        rcases h with h | h
        · exact absurd h (by omega)
        · have hl2 : tipping_ativado xF T m = false := by
            cases hh : tipping_ativado xF T m
            · rfl
            · rcases hiff.mp hh with ⟨j, h1, h2, h3⟩
              exact absurd h3 (not_le.mpr (h j h1 (by omega)))
          have hx : ¬xF (m + 1) ≤ T := not_le.mpr (h (m + 1) (by omega) le_rfl)
          rw [if_neg (by simp [hx]), if_neg (by simp [hl2])]

/-- A nonzero regime is permanent: once the classification leaves 0 it never
returns to 0 at a later index. -/
lemma regimeIdx_ne_zero_mono (xF : ℕ → ℝ) (T : ℝ) (i j : ℕ) (hij : i ≤ j)
    (h : regimeIdx xF T i ≠ 0) : regimeIdx xF T j ≠ 0 := by
  intro hj
  apply h
  rcases (regimeIdx_eq_zero_iff xF T j).mp hj with h0 | hall
  · have : i = 0 := by omega
    subst this
    simp [regimeIdx]
  · rw [regimeIdx_eq_zero_iff]
    rcases Nat.eq_zero_or_pos i with h0 | h1
    · exact Or.inl h0
    · exact Or.inr (fun k hk1 hk2 => hall k hk1 (by omega))

/-- Claim C1: for every input with tipping threshold T > 0, the step function
returns exactly the formulas of the specification: the amplification,
saturation, branch-dependent deforestation and pressure updates, and the
clamped next forest cover. -/
theorem C1_step_matches_spec (x y a b c T : ℝ) (ano : ℤ) (_hT : 0 < T) :
    sistema_step_tipping x y a b c T ano = spec_step x y a b c T ano := by
  unfold sistema_step_tipping spec_step spec_deforestation spec_amplification
    spec_sigma fator_clima sigma
  by_cases h : x ≤ T <;> simp [h]

/-- Witness for claim C1 at a concrete input with threshold 0.2 > 0. -/
theorem C1_step_matches_spec_witness :
    (0 : ℝ) < 0.2 ∧
      sistema_step_tipping 0.5 0.15 0.1 0.17 0.9 0.2 2024 =
        spec_step 0.5 0.15 0.1 0.17 0.9 0.2 2024 :=
  ⟨by norm_num, C1_step_matches_spec 0.5 0.15 0.1 0.17 0.9 0.2 2024 (by norm_num)⟩

/-- A one-year horizon has length 1. -/
lemma horizonLen_unit : horizonLen 2024 2024 = 1 := by
  norm_num [horizonLen]

/-- Concrete evaluation of the simulator on a one-year horizon: only the
seeded initial state is produced. -/
lemma simular_unit_eval :
    simular_cenario [] 0.17 0.9 0.85 0.15 0.2 2024 2024 =
      some ⟨[2024], [0.85], [0.15], [0], [0]⟩ := by
  rw [simular_some_iff]
  have hr : List.range 1 = [0] := by simp [List.range_succ]
  refine ⟨⟨?_, ?_⟩, ?_⟩
  · rw [horizonLen_unit]
  · rw [horizonLen_unit]; simp
  · simp only [horizonLen_unit, hr, List.map_cons, List.map_nil]
    simp [estado, regimeIdx]

/-- Concrete evaluation of the simulator on a one-year horizon whose initial
cover 0.1 is already below the tipping threshold 0.2. -/
lemma simular_unit_eval_low :
    simular_cenario [] 0.17 0.9 0.1 0.15 0.2 2024 2024 =
      some ⟨[2024], [0.1], [0.15], [0], [0]⟩ := by
  rw [simular_some_iff]
  have hr : List.range 1 = [0] := by simp [List.range_succ]
  refine ⟨⟨?_, ?_⟩, ?_⟩
  · rw [horizonLen_unit]
  · rw [horizonLen_unit]; simp
  · simp only [horizonLen_unit, hr, List.map_cons, List.map_nil]
    simp [estado, regimeIdx]

/-- Membership of a first-crossing year in the year list. -/
lemma ano_limite_mem (xs : List ℝ) (ys : List ℤ) (L : ℝ) (a : ℤ)
    (h : ano_limite xs ys L = some a) : a ∈ ys := by
  induction xs generalizing ys with
  | nil => simp [ano_limite] at h
  | cons x xs ih =>
      cases ys with
      | nil => simp [ano_limite] at h
      | cons y ys2 =>
          by_cases hx : x ≤ L
          · simp [ano_limite, hx] at h
            rw [← h]
            exact List.mem_cons_self _ _
          · simp [ano_limite, hx] at h
            exact List.mem_cons_of_mem _ (ih ys2 h)

/-- Length of the trend trajectory: the 227 years 2024..2250. -/
lemma cenario_tendencia_length : cenario_tendencia.length = 227 := by
  norm_num [cenario_tendencia, n_anos, horizonLen, ano_inicial, ano_final]
  rfl

/-- Claim C2: a valid step never increases the forest cover and keeps it
nonnegative, and consequently every forest-cover series produced by the
simulator from an initial cover in [0,1] is antitone in the year index with
every entry in [0,1]. -/
theorem C2_forest_cover_monotone_bounded :
    (∀ (x y a b c T : ℝ) (ano : ℤ),
        0 ≤ x → x ≤ 1 → 0 ≤ y → 0 ≤ a → 0 ≤ b → 0 ≤ c → 0 < T →
        0 ≤ (sistema_step_tipping x y a b c T ano).1 ∧
          (sistema_step_tipping x y a b c T ano).1 ≤ x) ∧
    (∀ (aT : List ℝ) (b c x0 y0 T : ℝ) (ai af : ℤ) (res : SimResult),
        (∀ a ∈ aT, 0 ≤ a) → 0 ≤ b → 0 ≤ c → 0 ≤ x0 → x0 ≤ 1 → 0 ≤ y0 → 0 < T →
        simular_cenario aT b c x0 y0 T ai af = some res →
        (∀ i j, i ≤ j →
          ∀ (hi : i < res.x_series.length) (hj : j < res.x_series.length),
            res.x_series[j] ≤ res.x_series[i]) ∧
        (∀ i (hi : i < res.x_series.length),
            0 ≤ res.x_series[i] ∧ res.x_series[i] ≤ 1)) := by
  constructor
  · intro x y a b c T ano hx hx1 hy ha hb hc hT
    exact step_x_bounds x y a b c T ano hx ha hT
  · intro aT b c x0 y0 T ai af res haT hb hc hx0 hx1 hy0 hT hres
    rw [simular_some_iff] at hres
    obtain ⟨⟨hn, hlen⟩, rfl⟩ := hres
    have haT2 : ∀ i, 0 ≤ (fun j => aT.getD j 0) i := fun i => getD_nonneg aT haT i
    constructor
    · intro i j hij hi hj
      simp only [List.getElem_map, List.getElem_range]
      exact estado_x_antitone _ b c x0 y0 T ai haT2 hT hx0 i j hij
    · intro i hi
      simp only [List.getElem_map, List.getElem_range]
      exact ⟨estado_x_nonneg _ b c x0 y0 T ai hx0 i,
        estado_x_le_one _ b c x0 y0 T ai haT2 hT hx0 hx1 i⟩

/-- Witness for claim C2: a concrete step and the entry of a concrete
simulated series, with every hypothesis discharged numerically. -/
theorem C2_forest_cover_monotone_bounded_witness :
    (0 ≤ (sistema_step_tipping 0.5 0.2 0.1 0.17 0.9 0.2 2025).1 ∧
      (sistema_step_tipping 0.5 0.2 0.1 0.17 0.9 0.2 2025).1 ≤ 0.5) ∧
    (0 ≤ (⟨[2024], [0.85], [0.15], [0], [0]⟩ : SimResult).x_series.get ⟨0, by simp⟩ ∧
      (⟨[2024], [0.85], [0.15], [0], [0]⟩ : SimResult).x_series.get ⟨0, by simp⟩ ≤ 1) := by
  constructor
  · exact C2_forest_cover_monotone_bounded.1 0.5 0.2 0.1 0.17 0.9 0.2 2025
      (by norm_num) (by norm_num) (by norm_num) (by norm_num) (by norm_num)
      (by norm_num) (by norm_num)
  · exact (C2_forest_cover_monotone_bounded.2 [] 0.17 0.9 0.85 0.15 0.2
      2024 2024 ⟨[2024], [0.85], [0.15], [0], [0]⟩ (by simp) (by norm_num)
      (by norm_num) (by norm_num) (by norm_num) (by norm_num) (by norm_num)
      simular_unit_eval).2 0 (by simp)

/-- Claim C3: in every simulated regime series the classification is a
one-way latch: value 1 appears exactly at the first index from 1 onward
whose cover is at or below the threshold, value 2 exactly when a strictly
earlier index from 1 onward crossed, value 0 exactly before any crossing,
and a nonzero regime never returns to 0. -/
theorem C3_regime_one_way_latch :
    ∀ (aT : List ℝ) (b c x0 y0 T : ℝ) (ai af : ℤ) (res : SimResult),
      simular_cenario aT b c x0 y0 T ai af = some res →
      (∀ i (hi : i < res.regime.length) (hxi : i < res.x_series.length),
        (res.regime[i] = 1 ↔ 1 ≤ i ∧ res.x_series[i] ≤ T ∧
            ∀ j (hj : j < res.x_series.length), 1 ≤ j → j < i →
              T < res.x_series[j]) ∧
        (res.regime[i] = 2 ↔ ∃ j, ∃ _ : j < res.x_series.length,
            1 ≤ j ∧ j < i ∧ res.x_series[j] ≤ T) ∧
        (res.regime[i] = 0 ↔ (i = 0 ∨ ∀ j (hj : j < res.x_series.length),
            1 ≤ j → j ≤ i → T < res.x_series[j]))) ∧
      (∀ i j (hi : i < res.regime.length) (hj : j < res.regime.length),
        i ≤ j → res.regime[i] ≠ 0 → res.regime[j] ≠ 0) := by
  intro aT b c x0 y0 T ai af res hres
  rw [simular_some_iff] at hres
  obtain ⟨⟨hn, hlen⟩, rfl⟩ := hres
  constructor
  · intro i hi hxi
    simp only [List.length_map, List.length_range] at hi hxi
    simp only [List.getElem_map, List.getElem_range, List.length_map,
      List.length_range]
    refine ⟨?_, ?_, ?_⟩
    · rw [regimeIdx_eq_one_iff]
      constructor
      · rintro ⟨h1, h2, h3⟩
        exact ⟨h1, h2, fun j hj hj1 hji => h3 j hj1 hji⟩
      · rintro ⟨h1, h2, h3⟩
        exact ⟨h1, h2, fun j hj1 hji => h3 j (by omega) hj1 hji⟩
    · rw [regimeIdx_eq_two_iff]
      constructor
      · rintro ⟨j, h1, h2, h3⟩
        exact ⟨j, by omega, h1, h2, h3⟩
      · rintro ⟨j, hj, h1, h2, h3⟩
        exact ⟨j, h1, h2, h3⟩
    · rw [regimeIdx_eq_zero_iff]
      constructor
      · rintro (h | h)
        · exact Or.inl h
        · exact Or.inr (fun j hj h1 h2 => h j h1 h2)
      · rintro (h | h)
        · exact Or.inl h
        · exact Or.inr (fun j h1 h2 => h j (by omega) h1 h2)
  · intro i j hi hj hij h
    simp only [List.getElem_map, List.getElem_range] at h ⊢
    exact regimeIdx_ne_zero_mono _ T i j hij h

/-- Witness for claim C3: on a concrete simulated run the year-0 regime is
classified 0 by the latch characterization. -/
theorem C3_regime_one_way_latch_witness :
    (⟨[2024], [0.85], [0.15], [0], [0]⟩ : SimResult).regime.get ⟨0, by simp⟩ = 0 := by
  exact ((C3_regime_one_way_latch [] 0.17 0.9 0.85 0.15 0.2 2024 2024
    ⟨[2024], [0.85], [0.15], [0], [0]⟩ simular_unit_eval).1 0 (by simp)
    (by simp)).2.2.mpr (Or.inl rfl)

/-- Claim C4 as amended: the simulator performs no input validation: it
returns a result exactly when the horizon is nonempty and the forcing
sequence is long enough for the loop reads, regardless of the initial
forest cover and of whether the forcing length equals the horizon length. -/
theorem C4_no_input_validation :
    ∀ (aT : List ℝ) (b c x0 y0 T : ℝ) (ai af : ℤ),
      (simular_cenario aT b c x0 y0 T ai af).isSome = true ↔
        (1 ≤ horizonLen ai af ∧ horizonLen ai af - 1 ≤ aT.length) := by
  intro aT b c x0 y0 T ai af
  unfold simular_cenario
  split
  next h => simp [h]
  next h =>
    exact ⟨fun hc => by simp at hc, fun hg => absurd hg h⟩

/-- Counterexample to claim C4 as stated: with an empty forcing sequence
(length 0, different from the one-year horizon) and an initial cover 1.5
outside [0,1], the simulator still returns a SimulationResult instead of
failing. -/
theorem C4_counterexample :
    ([] : List ℝ).length ≠ horizonLen 2024 2024 ∧
      ¬((0 : ℝ) ≤ 1.5 ∧ (1.5 : ℝ) ≤ 1) ∧
      (simular_cenario [] 0.1747 0.9 1.5 0.15 0.2 2024 2024).isSome = true := by
  refine ⟨by rw [horizonLen_unit]; simp, by norm_num, ?_⟩
  unfold simular_cenario
  rw [if_pos (by rw [horizonLen_unit]; simp)]
  rfl

/-- Claim C5 as amended: the pressure-saturation division is guarded, but
the transition factor also divides by the tipping threshold: the checked
step is total (and equals the unchecked step) except exactly when the
post-tipping branch is taken with threshold 0, where the source evaluates
the quotient (T - x)/T with zero denominator. -/
theorem C5_step_total_characterization :
    ∀ (x y a b c T : ℝ) (ano : ℤ),
      sistema_step_tipping_checked x y a b c T ano =
        if x ≤ T ∧ T = 0 then none
        else some (sistema_step_tipping x y a b c T ano) := by
  intro x y a b c T ano
  unfold sistema_step_tipping_checked sistema_step_tipping divChecked sigma
  by_cases hy : y > 0
  · have h1y : (1 : ℝ) + y ≠ 0 := by positivity
    by_cases hxT : x ≤ T
    · by_cases hT : T = 0
      · have hx0 : x ≤ (0 : ℝ) := hT ▸ hxT
        simp [hy, h1y, hxT, hT, hx0]
      · simp [hy, h1y, hxT, hT]
    · simp [hy, h1y, hxT]
  · by_cases hxT : x ≤ T
    · by_cases hT : T = 0
      · have hx0 : x ≤ (0 : ℝ) := hT ▸ hxT
        simp [hy, hxT, hT, hx0]
      · simp [hy, hxT, hT]
    · simp [hy, hxT]

/-- Counterexample to claim C5 as stated: at forest cover 0, pressure 0 and
tipping threshold 0 (explicitly included in the claimed domain), the checked
step fails: the branch divides (0 - 0)/0, an unguarded division by zero. -/
theorem C5_counterexample :
    sistema_step_tipping_checked 0 0 0.1478 0.1747 0.9048 0 2024 = none := by
  unfold sistema_step_tipping_checked divChecked
  norm_num

/-- Claim C6: whenever both thresholds produce a first-crossing year over
the same series and ordered year labels, the crossing year of the smaller
(collapse) threshold is at least the crossing year of the larger (tipping)
threshold. -/
theorem C6_first_crossing_ordered :
    ∀ (xs : List ℝ) (ys : List ℤ) (L1 L2 : ℝ) (y1 y2 : ℤ),
      List.Sorted (fun p q => p ≤ q) ys → L1 ≤ L2 →
      ano_limite xs ys L1 = some y1 → ano_limite xs ys L2 = some y2 →
      y2 ≤ y1 := by
  intro xs
  induction xs with
  | nil =>
      intro ys L1 L2 y1 y2 _ _ h1 _
      simp [ano_limite] at h1
  | cons x xs ih =>
      intro ys L1 L2 y1 y2 hs hL h1 h2
      cases ys with
      | nil => simp [ano_limite] at h1
      | cons a ys2 =>
          rw [List.sorted_cons] at hs
          by_cases hx2 : x ≤ L2
          · have hy2 : a = y2 := by simpa [ano_limite, hx2] using h2
            by_cases hx1 : x ≤ L1
            · have hy1 : a = y1 := by simpa [ano_limite, hx1] using h1
              omega
            · simp only [ano_limite, if_neg hx1] at h1
              have hmem : y1 ∈ ys2 := ano_limite_mem xs ys2 L1 y1 h1
              have := hs.1 y1 hmem
              omega
          · have hx1 : ¬x ≤ L1 := fun h => hx2 (le_trans h hL)
            simp only [ano_limite, if_neg hx1] at h1
            simp only [ano_limite, if_neg hx2] at h2
            exact ih ys2 L1 L2 y1 y2 hs.2 hL h1 h2

/-- Witness for claim C6 on a concrete decreasing series: the collapse
threshold 0.05 is crossed at 2026, after the tipping threshold 0.2 at 2025. -/
theorem C6_first_crossing_ordered_witness :
    ano_limite [0.5, 0.1, 0.03] [2024, 2025, 2026] 0.05 = some 2026 ∧
      ano_limite [0.5, 0.1, 0.03] [2024, 2025, 2026] 0.2 = some 2025 ∧
      (2025 : ℤ) ≤ 2026 := by
  have h1 : ano_limite [0.5, 0.1, 0.03] [2024, 2025, 2026] 0.05 = some 2026 := by
    norm_num [ano_limite]
  have h2 : ano_limite [0.5, 0.1, 0.03] [2024, 2025, 2026] 0.2 = some 2025 := by
    norm_num [ano_limite]
  exact ⟨h1, h2, C6_first_crossing_ordered [0.5, 0.1, 0.03] [2024, 2025, 2026]
    0.05 0.2 2026 2025 (by norm_num [List.sorted_cons]) (by norm_num) h1 h2⟩

/-- Claim C7: the trend trajectory holds the raw value 0.0011 through year
index 16, decreases linearly to the floor 0.0007 from index 16 to index
16 + 120 = 136, stays at the floor afterwards, and every entry is rescaled
as a0 * (1 + raw/D_ref). -/
theorem C7_trend_trajectory :
    ∀ i (hi : i < cenario_tendencia.length),
      (i ≤ 16 → cenario_tendencia[i] = a0 * (1 + 0.0011 / D_ref)) ∧
      (16 ≤ i → i ≤ 136 →
        cenario_tendencia[i] =
          a0 * (1 + (0.0011 - (0.0011 - 0.0007) * (((i : ℝ) - 16) / 120)) / D_ref)) ∧
      (136 ≤ i → cenario_tendencia[i] = a0 * (1 + 0.0007 / D_ref)) := by
  intro i hi
  have hget : cenario_tendencia[i] = a0 * (1 + D_tend i / D_ref) := by
    simp [cenario_tendencia]
  refine ⟨?_, ?_, ?_⟩
  · intro h16
    rw [hget]
    unfold D_tend
    rcases Nat.eq_zero_or_pos i with h0 | hpos
    · simp [h0]
    · rw [if_neg (by omega), if_pos h16]
  · intro h16 h136
    rw [hget]
    unfold D_tend
    rcases eq_or_lt_of_le h16 with heq | hlt
    · rw [← heq]
      norm_num
    · rw [if_neg (by omega), if_neg (by omega)]
      have hile : (i : ℝ) ≤ 136 := by exact_mod_cast h136
      have hmin : min 1 (((i : ℝ) - 16) / 120) = ((i : ℝ) - 16) / 120 := by
        apply min_eq_right
        rw [div_le_one (by norm_num)]
        linarith
      rw [hmin]
  · intro h136
    rw [hget]
    unfold D_tend
    rw [if_neg (by omega), if_neg (by omega)]
    have hige : (136 : ℝ) ≤ (i : ℝ) := by exact_mod_cast h136
    have hmin : min 1 (((i : ℝ) - 16) / 120) = 1 := by
      apply min_eq_left
      rw [le_div_iff₀ (by norm_num)]
      linarith
    rw [hmin]
    norm_num

/-- Witness for claim C7 in the interpolation region, at year index 76. -/
theorem C7_trend_trajectory_witness :
    cenario_tendencia.get ⟨76, by rw [cenario_tendencia_length]; norm_num⟩ =
      a0 * (1 + (0.0011 - (0.0011 - 0.0007) * ((((76 : ℕ) : ℝ) - 16) / 120)) / D_ref) := by
  have h := (C7_trend_trajectory 76
    (by rw [cenario_tendencia_length]; norm_num)).2.1 (by norm_num) (by norm_num)
  simpa [List.get_eq_getElem] using h

/-- Claim C9: the regime entry of year index 0 is always 0 (Stable), even
when the initial cover is already at or below the threshold, in which case
the first-crossing analysis reports the start year itself. -/
theorem C9_year_zero_always_stable :
    ∀ (aT : List ℝ) (b c x0 y0 T : ℝ) (ai af : ℤ) (res : SimResult),
      simular_cenario aT b c x0 y0 T ai af = some res →
      (∀ h0 : 0 < res.regime.length, res.regime[0] = 0) ∧
      (x0 ≤ T → ano_limite res.x_series res.anos T = some ai) := by
  intro aT b c x0 y0 T ai af res hres
  rw [simular_some_iff] at hres
  obtain ⟨⟨hn, hlen⟩, rfl⟩ := hres
  obtain ⟨m, hm⟩ : ∃ m, horizonLen ai af = m + 1 :=
    ⟨horizonLen ai af - 1, by omega⟩
  constructor
  · intro h0
    simp only [List.getElem_map, List.getElem_range]
    rfl
  · intro hx0T
    dsimp only
    rw [hm, List.range_succ_eq_map]
    simp [ano_limite, estado, hx0T]

/-- Witness for claim C9: a run seeded below the threshold keeps regime 0
at year 0 while the crossing analysis reports the start year 2024. -/
theorem C9_year_zero_always_stable_witness :
    ano_limite (⟨[2024], [0.1], [0.15], [0], [0]⟩ : SimResult).x_series
        (⟨[2024], [0.1], [0.15], [0], [0]⟩ : SimResult).anos 0.2 = some 2024 ∧
      (⟨[2024], [0.1], [0.15], [0], [0]⟩ : SimResult).regime.get ⟨0, by simp⟩ = 0 := by
  constructor
  · exact (C9_year_zero_always_stable [] 0.17 0.9 0.1 0.15 0.2 2024 2024
      ⟨[2024], [0.1], [0.15], [0], [0]⟩ simular_unit_eval_low).2 (by norm_num)
  · exact (C9_year_zero_always_stable [] 0.17 0.9 0.1 0.15 0.2 2024 2024
      ⟨[2024], [0.1], [0.15], [0], [0]⟩ simular_unit_eval_low).1 (by simp)

/-- Claim C10: the deforestation series entry of year index 0 is always
exactly 0: it is the np.zeros seed never overwritten by the loop. -/
theorem C10_year_zero_desmat_zero :
    ∀ (aT : List ℝ) (b c x0 y0 T : ℝ) (ai af : ℤ) (res : SimResult),
      simular_cenario aT b c x0 y0 T ai af = some res →
      ∀ h0 : 0 < res.desmat_series.length, res.desmat_series[0] = 0 := by
  intro aT b c x0 y0 T ai af res hres
  rw [simular_some_iff] at hres
  obtain ⟨⟨hn, hlen⟩, rfl⟩ := hres
  intro h0
  simp only [List.getElem_map, List.getElem_range]
  rfl

/-- Witness for claim C10 on a concrete simulated run. -/
theorem C10_year_zero_desmat_zero_witness :
    (⟨[2024], [0.85], [0.15], [0], [0]⟩ : SimResult).desmat_series.get ⟨0, by simp⟩ = 0 := by
  exact C10_year_zero_desmat_zero [] 0.17 0.9 0.85 0.15 0.2 2024 2024
    ⟨[2024], [0.85], [0.15], [0], [0]⟩ simular_unit_eval (by simp)

end Amazonia
